import Mathlib

/-!
Shallow embedding of the rdf-tui interactive session controller
(src/app.rs, src/main.rs): the query buffer, the two-mode key dispatch,
the session loop, the browser-pane rendering dispatch, and the startup
path of main.  External collaborators (the graph engine, the terminal,
the filesystem) enter as oracle parameters.  The buffer height is a
Rust u16; its arithmetic is written with an explicit % 65536 to mirror
the wrapping of 16-bit unsigned arithmetic.
-/

/-- Mode from src/app.rs: enum Mode with variants Query and Browse
(the spec calls them Editing and Browsing). -/
inductive Mode where
  | Query
  | Browse
deriving DecidableEq

/-- Query from src/app.rs: struct Query with fields string (String) and
height (u16).  The text is a list of characters; height is a Nat kept
in range by writing its updates modulo 65536. -/
structure Query where
  string : List Char
  height : Nat
deriving DecidableEq

/-- The default query text of Query::new. -/
def defaultQueryString : String := "SELECT ?s ?p ?o WHERE \x7b ?s ?p ?o \x7d"

/-- Query::new: default text, height 3. -/
def Query.new : Query :=
  { string := defaultQueryString.toList, height := 3 }

/-- Query::push: append one character; increment height iff it is a
newline (u16 increment, hence mod 65536). -/
def Query.push (q : Query) (ch : Char) : Query :=
  { string := q.string ++ [ch],
    height := if ch = '\n' then (q.height + 1) % 65536 else q.height }

/-- Query::pop: remove and return the last character if any; decrement
height iff it was a newline (u16 decrement, written as wrapping
subtraction mod 65536). -/
def Query.pop (q : Query) : Option Char × Query :=
  match q.string.getLast? with
  | none => (none, q)
  | some ch =>
      (some ch,
        { string := q.string.dropLast,
          height := if ch = '\n' then (q.height + 65535) % 65536 else q.height })

/-- A buffer edit operation: append(char) is Query::push, remove_last
is Query::pop. -/
inductive QOp where
  | push (ch : Char)
  | pop
deriving DecidableEq

/-- Apply one edit operation to the buffer. -/
def Query.applyOp (q : Query) : QOp → Query
  | QOp.push ch => q.push ch
  | QOp.pop => (q.pop).2

/-- Apply a sequence of edit operations, left to right. -/
def Query.applyOps (q : Query) (ops : List QOp) : Query :=
  ops.foldl Query.applyOp q

/-- Number of newline characters in a buffer text. -/
def newlineCount (s : List Char) : Nat :=
  s.count '\n'

/-- Engine error of the external oxigraph store: a query parse failure
or an evaluation failure. -/
inductive EngineError where
  | parseError (msg : String)
  | evaluationError (msg : String)
deriving DecidableEq

/-- One query solution of the external engine: a finite map from
variable names to the stringified form of the bound term. -/
structure Solution where
  bindings : List (String × String)
deriving DecidableEq

/-- QuerySolution::get: look a variable up in the bindings. -/
def Solution.get (s : Solution) (v : String) : Option String :=
  (s.bindings.find? (fun p => p.1 == v)).map Prod.snd

/-- oxigraph QueryResults: Solutions carries the declared variable list
and an iterator of fallible solutions; Boolean and Graph are the
non-tabular outcomes. -/
inductive QueryResults where
  | Solutions (vars : List String) (sols : List (Except EngineError Solution))
  | Boolean (b : Bool)
  | Graph (triples : List String)

/-- Store: the external graph engine, abstracted to its query function. -/
structure Store where
  query : String → Except EngineError QueryResults

/-- App from src/app.rs: store, mode, query buffer, quitting flag. -/
structure App where
  store : Store
  mode : Mode
  query : Query
  quitting : Bool

/-- App::new.  The Store::new() result is passed in, since store
creation belongs to the external engine. -/
def App.new (store : Store) : App :=
  { store := store, mode := Mode.Browse, query := Query.new, quitting := false }

/-- App::switch_mode.  The source signature is anyhow::Result<()> and
every path returns Ok; the embedding keeps the Except shape. -/
def App.switchMode (app : App) : Except String App :=
  match app.mode with
  | Mode.Query => Except.ok { app with mode := Mode.Browse }
  | Mode.Browse => Except.ok { app with mode := Mode.Query }

/-- App::quit: set the quitting flag. -/
def App.quit (app : App) : App :=
  { app with quitting := true }

/-- crossterm KeyCode, restricted to the shapes the source matches on
plus a representative sample of the remaining codes. -/
inductive KeyCode where
  | Backspace
  | Enter
  | Tab
  | Char (ch : Char)
  | Esc
  | Up
  | Down
  | Left
  | Right
deriving DecidableEq

/-- crossterm KeyEventKind. -/
inductive KeyEventKind where
  | Press
  | Release
  | Repeat
deriving DecidableEq

/-- crossterm KeyEvent; modifiers and state are never inspected by the
source and are omitted. -/
structure KeyEvent where
  code : KeyCode
  kind : KeyEventKind
deriving DecidableEq

/-- crossterm Event; only Key events are acted on by handle_event. -/
inductive Event where
  | Key (key : KeyEvent)
  | Resize (w h : Nat)
  | FocusGained
  | FocusLost
deriving DecidableEq

/-- App::handle_key_code_in_query_mode: Backspace pops, Enter pushes a
newline, Tab switches mode, Char pushes the character, anything else is
ignored. -/
def App.handleKeyCodeInQueryMode (app : App) (code : KeyCode) : Except String App :=
  match code with
  | KeyCode.Backspace => Except.ok { app with query := (app.query.pop).2 }
  | KeyCode.Enter => Except.ok { app with query := app.query.push '\n' }
  | KeyCode.Tab => app.switchMode
  | KeyCode.Char ch => Except.ok { app with query := app.query.push ch }
  | _ => Except.ok app

/-- App::handle_key_code_in_browse_mode: Tab switches mode, the
character q quits, anything else is ignored. -/
def App.handleKeyCodeInBrowseMode (app : App) (code : KeyCode) : Except String App :=
  match code with
  | KeyCode.Tab => app.switchMode
  | KeyCode.Char ch => if ch = 'q' then Except.ok app.quit else Except.ok app
  | _ => Except.ok app

/-- App::handle_key: non-press events return immediately; press events
are dispatched on the current mode. -/
def App.handleKey (app : App) (key : KeyEvent) : Except String App :=
  if key.kind ≠ KeyEventKind.Press then Except.ok app
  else
    match app.mode with
    | Mode.Query => app.handleKeyCodeInQueryMode key.code
    | Mode.Browse => app.handleKeyCodeInBrowseMode key.code

/-- App::handle_event.  The poll outcome is passed in: none means the
16 ms poll timed out, some e means event::read returned e; non-key
events are dropped. -/
def App.handleEvent (app : App) (e : Option Event) : Except String App :=
  match e with
  | some (Event.Key k) => app.handleKey k
  | _ => Except.ok app

/-- The successful-result projection of handleEvent; handle_event never
returns an error, which the lemma handleEvent_eq_ok below proves. -/
def App.stepEvent (app : App) (e : Option Event) : App :=
  match app.handleEvent e with
  | Except.ok a => a
  | Except.error _ => app

/-- Fold stepEvent over a poll trace. -/
def App.stepEvents (app : App) (evs : List (Option Event)) : App :=
  evs.foldl App.stepEvent app

/-- App::run as its state-transition skeleton over a finite poll trace:
each iteration draws (draw takes an immutable reference and cannot
change the session state), handles one poll outcome, then breaks iff
the quitting flag is set.  Returns ok none when the trace is exhausted
with the loop still running, ok (some a) when the loop breaks in state
a. -/
def App.runLoop : App → List (Option Event) → Except String (Option App)
  | _, [] => Except.ok none
  | app, e :: rest =>
      match app.handleEvent e with
      | Except.error err => Except.error err
      | Except.ok a => if a.quitting then Except.ok (some a) else App.runLoop a rest

/-- The two shapes of the bottom (Explore) pane. -/
inductive BrowserView where
  | Table (header : List String) (rows : List (List String))
  | NoResult
deriving DecidableEq

/-- One table row: the stringified value of the solution at each
declared variable, in order; the source unwraps each lookup, so a
missing binding panics the frame, modelled as none. -/
def renderCells (s : Solution) : List String → Option (List String)
  | [] => some []
  | v :: vs =>
      match s.get v with
      | none => none
      | some val =>
          match renderCells s vs with
          | none => none
          | some rest => some (val :: rest)

/-- The rows loop of render_browser over the Ok solutions: one row per
solution; a panic in any row aborts the frame (none). -/
def renderRows (vars : List String) : List Solution → Option (List (List String))
  | [] => some []
  | s :: rest =>
      match renderCells s vars with
      | none => none
      | some row =>
          match renderRows vars rest with
          | none => none
          | some rows => some (row :: rows)

/-- The body of App::render_browser as a function of the engine
outcome: an ok Solutions outcome builds the table, skipping Err
solutions of the iterator and unwrapping every per-cell lookup; every
other outcome draws the centered NO RESULT paragraph. -/
def renderBrowserOutcome (outcome : Except EngineError QueryResults) : Option BrowserView :=
  match outcome with
  | Except.ok (QueryResults.Solutions vars sols) =>
      match renderRows vars (sols.filterMap Except.toOption) with
      | some rows => some (BrowserView.Table vars rows)
      | none => none
  | _ => some BrowserView.NoResult

/-- App::render_browser: the outcome of querying the store with the
current buffer text, rendered. -/
def App.renderBrowser (app : App) : Option BrowserView :=
  renderBrowserOutcome (app.store.query (String.mk app.query.string))

/-- Modelled from the spec: the external graph engine (out of scope per
section 1, interface in section 6 of the spec; its code is not part of
this repository) returns, for the default query run against an empty
dataset, a Solutions outcome whose columns are s, p, o with zero rows. -/
def emptyStoreDefaultOutcome : Except EngineError QueryResults :=
  Except.ok (QueryResults.Solutions ["s", "p", "o"] [])

/-- The key codes that handle_key_code_in_query_mode has a non-wildcard
arm for. -/
def handledInQueryMode : KeyCode → Bool
  | KeyCode.Backspace => true
  | KeyCode.Enter => true
  | KeyCode.Tab => true
  | KeyCode.Char _ => true
  | _ => false

/-- The key codes that handle_key_code_in_browse_mode has a
non-wildcard arm for. -/
def handledInBrowseMode : KeyCode → Bool
  | KeyCode.Tab => true
  | KeyCode.Char ch => ch == 'q'
  | _ => false

/-- An absolute path as App::load observes it: to_str is none exactly
when the path is not representable as UTF-8 text. -/
structure AbsPath where
  toStr : Option String

/-- Oracle for the external calls made by App::load, in source order:
std::path::absolute, fs::read_to_string, RdfParser::with_base_iri,
Store::load_from_read; loadedStore is the store after a successful
load. -/
structure LoadEnv where
  absoluteRes : Except String AbsPath
  readRes : Except String String
  baseIriRes : String → Except String Unit
  loadFromReadRes : Except String Unit
  loadedStore : Store

/-- App::load: resolve the path, require a UTF-8 path string, build the
file IRI, read the file, hand parser and bytes to the store loader;
the first failure short-circuits. -/
def App.load (app : App) (env : LoadEnv) : Except String App :=
  match env.absoluteRes with
  | Except.error e => Except.error e
  | Except.ok p =>
      match p.toStr with
      | none => Except.error "Fail to convert path to string"
      | some s =>
          match env.readRes with
          | Except.error e => Except.error e
          | Except.ok _ =>
              match env.baseIriRes ("file://" ++ s) with
              | Except.error e => Except.error e
              | Except.ok _ =>
                  match env.loadFromReadRes with
                  | Except.error e => Except.error e
                  | Except.ok _ => Except.ok { app with store := env.loadedStore }

/-- Oracle for main (src/main.rs): terminal setup, Store::new inside
App::new, the optional path argument with its load oracle, and the
outcome of the session loop. -/
structure MainEnv where
  setupRes : Except String Unit
  storeRes : Except String Store
  pathArg : Option LoadEnv
  runRes : Except String Unit

/-- main from src/main.rs: parse args, set up the terminal, create the
App, load the dataset if a path argument is present, then run the
session loop.  The Except value is what main returns; the Bool records
whether App::run was entered. -/
def mainModel (env : MainEnv) : Except String Unit × Bool :=
  match env.setupRes with
  | Except.error e => (Except.error e, false)
  | Except.ok _ =>
      match env.storeRes with
      | Except.error e => (Except.error e, false)
      | Except.ok store =>
          match env.pathArg with
          | some loadEnv =>
              match (App.new store).load loadEnv with
              | Except.error e => (Except.error e, false)
              | Except.ok _ => (env.runRes, true)
          | none => (env.runRes, true)

/-- A fixture store whose engine always fails to parse; used only to
instantiate theorems at concrete session states. -/
def failStore : Store :=
  { query := fun _ => Except.error (EngineError.parseError "syntax") }

/-- A fixture session in its initial state over the fixture store. -/
def appFx : App := App.new failStore

/-- A fixture session identical to appFx but in Query (editing) mode. -/
def appQFx : App := { appFx with mode := Mode.Query }

/-- A fixture key event: pressing the character q. -/
def keyQPress : KeyEvent := { code := KeyCode.Char 'q', kind := KeyEventKind.Press }

/-- C10: a newly created session starts in Browsing mode (not Editing),
with the quitting flag unset and the query buffer holding the default
text at height 3. -/
theorem claim_C10_initial_state (store : Store) :
    (App.new store).mode = Mode.Browse ∧
    (App.new store).quitting = false ∧
    (App.new store).query.string = String.toList "SELECT ?s ?p ?o WHERE \x7b ?s ?p ?o \x7d" ∧
    (App.new store).query.height = 3 :=
  ⟨rfl, rfl, rfl, rfl⟩

/-- C5: switch_mode is an unconditional involution: it sends Query to
Browse and Browse to Query, applying it twice returns the original
session, and it changes no session state other than the mode. -/
theorem claim_C5_toggle_involution (app : App) :
    ((app.mode = Mode.Query ∧ app.switchMode = Except.ok { app with mode := Mode.Browse }) ∨
      (app.mode = Mode.Browse ∧ app.switchMode = Except.ok { app with mode := Mode.Query })) ∧
    (∀ a1, app.switchMode = Except.ok a1 →
      a1.switchMode = Except.ok app ∧ a1.mode ≠ app.mode ∧
      a1.query = app.query ∧ a1.quitting = app.quitting ∧ a1.store = app.store) := by
  obtain ⟨st, m, q, f⟩ := app
  cases m
  · refine ⟨Or.inl ⟨rfl, rfl⟩, ?_⟩
    intro a1 h
    simp only [App.switchMode, Except.ok.injEq] at h
    subst h
    exact ⟨rfl, by simp, rfl, rfl, rfl⟩
  · refine ⟨Or.inr ⟨rfl, rfl⟩, ?_⟩
    intro a1 h
    simp only [App.switchMode, Except.ok.injEq] at h
    subst h
    exact ⟨rfl, by simp, rfl, rfl, rfl⟩

/-- Witness for C5 at the concrete fixture session. -/
theorem claim_C5_witness :
    App.switchMode { appFx with mode := Mode.Query } = Except.ok appFx :=
  ((claim_C5_toggle_involution appFx).2 { appFx with mode := Mode.Query } rfl).1

/-- C2: pressing the quit key in Editing (Query) mode never sets the
quitting flag, and pressing a text-editing key (Backspace, Enter, or
any character key) in Browsing mode leaves the query buffer, hence its
text and height, unchanged. -/
theorem claim_C2_mode_frame (app : App) (k : KeyEvent) :
    (app.mode = Mode.Query → k.code = KeyCode.Char 'q' →
      ∀ a2, app.handleKey k = Except.ok a2 → a2.quitting = app.quitting) ∧
    (app.mode = Mode.Browse →
      (k.code = KeyCode.Backspace ∨ k.code = KeyCode.Enter ∨ ∃ ch, k.code = KeyCode.Char ch) →
      ∀ a2, app.handleKey k = Except.ok a2 → a2.query = app.query) := by
  obtain ⟨st, m, q, f⟩ := app
  obtain ⟨code, kind⟩ := k
  constructor
  · rintro hm hc a2 h
    subst hm
    subst hc
    cases kind
    case Press =>
      simp [App.handleKey, App.handleKeyCodeInQueryMode] at h
      subst h; rfl
    case Release =>
      simp [App.handleKey] at h
      subst h; rfl
    case Repeat =>
      simp [App.handleKey] at h
      subst h; rfl
  · rintro hm hc a2 h
    subst hm
    cases kind
    case Press =>
      rcases hc with hc | hc | ⟨ch, hc⟩ <;> subst hc
      · simp [App.handleKey, App.handleKeyCodeInBrowseMode] at h
        subst h; rfl
      · simp [App.handleKey, App.handleKeyCodeInBrowseMode] at h
        subst h; rfl
      · by_cases hch : ch = 'q'
        · subst hch
          simp [App.handleKey, App.handleKeyCodeInBrowseMode, App.quit] at h
          subst h; rfl
        · simp [App.handleKey, App.handleKeyCodeInBrowseMode, hch] at h
          subst h; rfl
    case Release =>
      simp [App.handleKey] at h
      subst h; rfl
    case Repeat =>
      simp [App.handleKey] at h
      subst h; rfl

/-- Witness for C2: pressing q in Editing mode at the fixture session. -/
theorem claim_C2_witness :
    ({ appQFx with query := appQFx.query.push 'q' } : App).quitting = appQFx.quitting :=
  (claim_C2_mode_frame appQFx keyQPress).1 rfl rfl
    { appQFx with query := appQFx.query.push 'q' } rfl

/-- C7: a key event that is not a key-press, or a key-press whose code
is not among the codes handled by the current mode, leaves the entire
session unchanged and never fails: handle_key returns Ok with the same
session. -/
theorem claim_C7_ignored_keys (app : App) (k : KeyEvent) :
    (k.kind ≠ KeyEventKind.Press → app.handleKey k = Except.ok app) ∧
    (app.mode = Mode.Query → handledInQueryMode k.code = false →
      app.handleKey k = Except.ok app) ∧
    (app.mode = Mode.Browse → handledInBrowseMode k.code = false →
      app.handleKey k = Except.ok app) := by
  obtain ⟨st, m, q, f⟩ := app
  obtain ⟨code, kind⟩ := k
  refine ⟨?_, ?_, ?_⟩
  · intro hk
    cases kind
    · exact absurd rfl hk
    · rfl
    · rfl
  · intro hm hc
    subst hm
    cases kind
    case Release => rfl
    case Repeat => rfl
    case Press =>
      cases code <;> first
        | rfl
        | (simp [handledInQueryMode] at hc)
  · intro hm hc
    subst hm
    cases kind
    case Release => rfl
    case Repeat => rfl
    case Press =>
      cases code <;> first
        | rfl
        | (simp [handledInBrowseMode] at hc; done)
        | (rename_i ch
           rw [handledInBrowseMode, beq_eq_false_iff_ne] at hc
           simp [App.handleKey, App.handleKeyCodeInBrowseMode, hc])

/-- Witness for C7: pressing Escape in Browsing mode at the fixture
session is a no-op. -/
theorem claim_C7_witness :
    appFx.handleKey { code := KeyCode.Esc, kind := KeyEventKind.Press } = Except.ok appFx :=
  (claim_C7_ignored_keys appFx { code := KeyCode.Esc, kind := KeyEventKind.Press }).2.2 rfl rfl

/-- Appending one character adds one to the newline count iff the
character is a newline. -/
theorem newlineCount_append (s : List Char) (ch : Char) :
    newlineCount (s ++ [ch]) = newlineCount s + (if ch = '\n' then 1 else 0) := by
  by_cases h : ch = '\n' <;>
    simp [newlineCount, List.count_append, List.count_cons, h]

/-- Splitting the newline count at the last character. -/
theorem newlineCount_of_getLast? (s : List Char) (ch : Char) (h : s.getLast? = some ch) :
    newlineCount s = newlineCount s.dropLast + (if ch = '\n' then 1 else 0) := by
  conv_lhs => rw [← List.dropLast_append_getLast? ch (Option.mem_def.mpr h)]
  exact newlineCount_append s.dropLast ch

/-- One edit operation preserves the modular height invariant. -/
theorem applyOp_height_mod (q : Query) (op : QOp)
    (h : q.height = (3 + newlineCount q.string) % 65536) :
    (q.applyOp op).height = (3 + newlineCount (q.applyOp op).string) % 65536 := by
  cases op
  case push ch =>
    by_cases hch : ch = '\n'
    · subst hch
      simp [Query.applyOp, Query.push, newlineCount_append]
      omega
    · simp only [Query.applyOp, Query.push, if_neg hch, newlineCount_append]
      rw [h]
      simp [hch]
  case pop =>
    cases hl : q.string.getLast? with
    | none => simpa [Query.applyOp, Query.pop, hl] using h
    | some ch =>
      have hs := newlineCount_of_getLast? q.string ch hl
      by_cases hch : ch = '\n'
      · subst hch
        simp [Query.applyOp, Query.pop, hl] at hs ⊢
        omega
      · simp [Query.applyOp, Query.pop, hl, hch] at hs ⊢
        omega

/-- The modular height invariant is preserved by any edit sequence. -/
theorem applyOps_height_mod (ops : List QOp) (q : Query)
    (h : q.height = (3 + newlineCount q.string) % 65536) :
    (q.applyOps ops).height = (3 + newlineCount (q.applyOps ops).string) % 65536 := by
  induction ops generalizing q with
  | nil => exact h
  | cons op rest ih => exact ih (q.applyOp op) (applyOp_height_mod q op h)

/-- The fresh buffer satisfies the modular height invariant. -/
theorem query_new_height_mod :
    Query.new.height = (3 + newlineCount Query.new.string) % 65536 := by
  decide

/-- Applying n newline pushes: effect on the height. -/
theorem replicate_newline_height (n : Nat) (q : Query) (hq : q.height < 65536) :
    (q.applyOps (List.replicate n (QOp.push '\n'))).height = (q.height + n) % 65536 := by
  induction n generalizing q with
  | zero => simp [Query.applyOps, Nat.mod_eq_of_lt hq]
  | succ m ih =>
    rw [List.replicate_succ]
    have : q.applyOps (QOp.push '\n' :: List.replicate m (QOp.push '\n'))
        = (q.applyOp (QOp.push '\n')).applyOps (List.replicate m (QOp.push '\n')) := rfl
    rw [this, ih (q.applyOp (QOp.push '\n')) (by simp [Query.applyOp, Query.push]; omega)]
    simp [Query.applyOp, Query.push]
    omega

/-- Applying n newline pushes: effect on the newline count. -/
theorem replicate_newline_count (n : Nat) (q : Query) :
    newlineCount (q.applyOps (List.replicate n (QOp.push '\n'))).string
      = newlineCount q.string + n := by
  induction n generalizing q with
  | zero => simp [Query.applyOps]
  | succ m ih =>
    rw [List.replicate_succ]
    have : q.applyOps (QOp.push '\n' :: List.replicate m (QOp.push '\n'))
        = (q.applyOp (QOp.push '\n')).applyOps (List.replicate m (QOp.push '\n')) := rfl
    rw [this, ih (q.applyOp (QOp.push '\n'))]
    simp [Query.applyOp, Query.push, newlineCount_append]
    omega

/-- The buffer reached from the fresh buffer by 65533 newline appends. -/
def qBig : Query := Query.new.applyOps (List.replicate 65533 (QOp.push '\n'))

/-- C1 counterexample: after the concrete operation sequence of 65533
newline appends from the initial buffer, the height (a wrapped u16) is
0 while 3 plus the newline count is 65536, so the claimed exact
invariant fails. -/
theorem claim_C1_counterexample :
    ¬ ((Query.new.applyOps (List.replicate 65533 (QOp.push '\n'))).height
        = 3 + newlineCount (Query.new.applyOps (List.replicate 65533 (QOp.push '\n'))).string) := by
  have h1 := replicate_newline_height 65533 Query.new (by decide)
  have h2 := replicate_newline_count 65533 Query.new
  rw [h1, h2]
  have h3 : Query.new.height = 3 := rfl
  have h4 : newlineCount Query.new.string = 0 := by decide
  rw [h3, h4]
  decide

/-- C1 (amended): for every sequence of append and remove_last
operations from the initial buffer, after every operation the height
equals (3 + newline count) modulo 65536, the height being a u16; it
equals 3 + newline count exactly as claimed whenever the newline count
is below 65533 = 2^16 - 3. -/
theorem claim_C1_height_invariant (ops : List QOp) :
    (Query.new.applyOps ops).height
        = (3 + newlineCount (Query.new.applyOps ops).string) % 65536 ∧
    (newlineCount (Query.new.applyOps ops).string < 65533 →
      (Query.new.applyOps ops).height = 3 + newlineCount (Query.new.applyOps ops).string) := by
  have h := applyOps_height_mod ops Query.new query_new_height_mod
  refine ⟨h, fun hlt => ?_⟩
  rw [h]
  omega

/-- Witness for C1 at the empty operation sequence. -/
theorem claim_C1_witness :
    (Query.new.applyOps []).height = 3 + newlineCount (Query.new.applyOps []).string :=
  (claim_C1_height_invariant []).2 (by decide)

/-- C9: the height is a 16-bit value: pushing a newline increments it
modulo 65536; from the reachable buffer qBig that already holds
65533 = 2^16 - 3 newlines, one more newline append leaves a wrapped
height, not 3 plus the newline count; and the exact height invariant
holds whenever the newline count stays below 2^16 - 3. -/
theorem claim_C9_u16_wrap :
    (∀ q : Query, (q.push '\n').height = (q.height + 1) % 65536) ∧
    (newlineCount qBig.string = 65533 ∧
      ¬ ((qBig.push '\n').height = 3 + newlineCount (qBig.push '\n').string)) ∧
    (∀ ops : List QOp, newlineCount (Query.new.applyOps ops).string < 65533 →
      (Query.new.applyOps ops).height = 3 + newlineCount (Query.new.applyOps ops).string) := by
  have hc : newlineCount qBig.string = 65533 := by
    have h2 := replicate_newline_count 65533 Query.new
    have h4 : newlineCount Query.new.string = 0 := by decide
    rw [qBig, h2, h4]
  have hh : qBig.height = 0 := by
    have h1 := replicate_newline_height 65533 Query.new (by decide)
    have h3 : Query.new.height = 3 := rfl
    rw [qBig, h1, h3]
  refine ⟨fun q => by simp [Query.push], ⟨hc, ?_⟩, fun ops hlt => ?_⟩
  · have e1 : ∀ q : Query, (q.push '\n').height = (q.height + 1) % 65536 :=
      fun q => by simp [Query.push]
    have e2 : ∀ q : Query, newlineCount (q.push '\n').string = newlineCount q.string + 1 :=
      fun q => by simp [Query.push, newlineCount_append]
    rw [e1 qBig, e2 qBig, hh, hc]
    decide
  · have h := applyOps_height_mod ops Query.new query_new_height_mod
    rw [h]
    omega

/-- Witness for C9 at a single newline append. -/
theorem claim_C9_witness :
    (Query.new.applyOps [QOp.push '\n']).height
      = 3 + newlineCount (Query.new.applyOps [QOp.push '\n']).string :=
  claim_C9_u16_wrap.2.2 [QOp.push '\n'] (by decide)

/-- When every declared variable is bound, the cells of a row are the
looked-up values. -/
theorem renderCells_eq_map (s : Solution) (vs : List String)
    (h : ∀ v ∈ vs, (s.get v).isSome) :
    renderCells s vs = some (vs.map (fun v => (s.get v).getD "")) := by
  induction vs with
  | nil => rfl
  | cons v rest ih =>
    have hv : (s.get v).isSome := h v (by simp)
    obtain ⟨val, hval⟩ := Option.isSome_iff_exists.mp hv
    rw [renderCells, hval, ih (fun v2 hv2 => h v2 (by simp [hv2]))]
    simp [hval]

/-- A missing binding for any declared variable aborts the row. -/
theorem renderCells_eq_none (s : Solution) (vs : List String) (v : String)
    (hv : v ∈ vs) (hn : s.get v = none) :
    renderCells s vs = none := by
  induction vs with
  | nil => cases hv
  | cons x rest ih =>
    rcases List.mem_cons.mp hv with h | h
    · subst h
      rw [renderCells, hn]
    · rw [renderCells]
      cases hx : s.get x
      · rfl
      · rw [ih h]

/-- When every solution binds every declared variable, the rows are one
per solution. -/
theorem renderRows_eq_map (vars : List String) (l : List Solution)
    (h : ∀ s ∈ l, ∀ v ∈ vars, (s.get v).isSome) :
    renderRows vars l = some (l.map (fun s => vars.map (fun v => (s.get v).getD ""))) := by
  induction l with
  | nil => rfl
  | cons s rest ih =>
    rw [renderRows, renderCells_eq_map s vars (h s (by simp)),
      ih (fun s2 hs2 v hv => h s2 (by simp [hs2]) v hv)]
    rfl

/-- A missing binding in any kept solution aborts the frame. -/
theorem renderRows_eq_none (vars : List String) (l : List Solution) (s : Solution)
    (hs : s ∈ l) (v : String) (hv : v ∈ vars) (hn : s.get v = none) :
    renderRows vars l = none := by
  induction l with
  | nil => cases hs
  | cons x rest ih =>
    rcases List.mem_cons.mp hs with h | h
    · subst h
      rw [renderRows, renderCells_eq_none s vars v hv hn]
    · rw [renderRows]
      cases hx : renderCells x vars
      · rfl
      · rw [ih h]

/-- Successful rendering produces exactly one row per kept solution. -/
theorem renderRows_length (vars : List String) (l : List Solution) (ys : List (List String))
    (h : renderRows vars l = some ys) : ys.length = l.length := by
  induction l generalizing ys with
  | nil =>
    rw [renderRows] at h
    cases h
    rfl
  | cons x rest ih =>
    rw [renderRows] at h
    cases hx : renderCells x vars with
    | none => rw [hx] at h; cases h
    | some row =>
      rw [hx] at h
      cases hr : renderRows vars rest with
      | none => rw [hr] at h; cases h
      | some rows =>
        rw [hr] at h
        cases h
        simp [ih rows hr]

/-- C3: the bottom pane is the tabular view (header = declared columns,
one row of looked-up cell values per kept solution) exactly when the
engine outcome is a Solutions result, including the zero-row case --
in particular the spec-modelled outcome of the default query on an
empty dataset renders as the header s, p, o with no data rows -- and it
is the centered NO RESULT view for every engine failure and for every
non-tabular outcome alike. -/
theorem claim_C3_render_dispatch :
    (∀ e : EngineError, renderBrowserOutcome (Except.error e) = some BrowserView.NoResult) ∧
    (∀ b : Bool, renderBrowserOutcome (Except.ok (QueryResults.Boolean b))
      = some BrowserView.NoResult) ∧
    (∀ g : List String, renderBrowserOutcome (Except.ok (QueryResults.Graph g))
      = some BrowserView.NoResult) ∧
    (∀ (vars : List String) (sols : List (Except EngineError Solution)),
      (∀ s ∈ sols.filterMap Except.toOption, ∀ v ∈ vars, (s.get v).isSome) →
      renderBrowserOutcome (Except.ok (QueryResults.Solutions vars sols))
        = some (BrowserView.Table vars
            ((sols.filterMap Except.toOption).map
              (fun s => vars.map (fun v => (s.get v).getD ""))))) ∧
    (renderBrowserOutcome emptyStoreDefaultOutcome
      = some (BrowserView.Table ["s", "p", "o"] [])) ∧
    (∀ (outcome : Except EngineError QueryResults) (hd : List String)
        (rows : List (List String)),
      renderBrowserOutcome outcome = some (BrowserView.Table hd rows) →
      ∃ sols, outcome = Except.ok (QueryResults.Solutions hd sols) ∧
        rows.length = (sols.filterMap Except.toOption).length) := by
  refine ⟨fun e => rfl, fun b => rfl, fun g => rfl, ?_, rfl, ?_⟩
  · intro vars sols h
    rw [renderBrowserOutcome, renderRows_eq_map vars (sols.filterMap Except.toOption) h]
  · intro outcome hd rows h
    match outcome with
    | Except.error e => simp [renderBrowserOutcome] at h
    | Except.ok (QueryResults.Boolean b) => simp [renderBrowserOutcome] at h
    | Except.ok (QueryResults.Graph g) => simp [renderBrowserOutcome] at h
    | Except.ok (QueryResults.Solutions vars sols) =>
      rw [renderBrowserOutcome] at h
      cases hr : renderRows vars (sols.filterMap Except.toOption) with
      | none => rw [hr] at h; cases h
      | some rows0 =>
        rw [hr] at h
        cases h
        exact ⟨sols, rfl, renderRows_length _ _ _ hr⟩

/-- Witness for C3: a one-variable, one-solution outcome renders as a
one-cell table. -/
theorem claim_C3_witness :
    renderBrowserOutcome
        (Except.ok (QueryResults.Solutions ["s"] [Except.ok ⟨[("s", "v1")]⟩]))
      = some (BrowserView.Table ["s"] [["v1"]]) := by
  have h := claim_C3_render_dispatch.2.2.2.1 ["s"] [Except.ok ⟨[("s", "v1")]⟩] (by decide)
  exact h.trans (by decide)

/-- C4: a kept result row missing a value for one of the declared
columns makes the frame rendering fail fatally (the per-cell unwrap has
no fallback), and when every kept row binds every declared column the
failing branch is unreachable: rendering succeeds. -/
theorem claim_C4_missing_binding_fatal :
    (∀ (vars : List String) (sols : List (Except EngineError Solution))
        (s : Solution) (v : String),
      s ∈ sols.filterMap Except.toOption → v ∈ vars → s.get v = none →
      renderBrowserOutcome (Except.ok (QueryResults.Solutions vars sols)) = none) ∧
    (∀ (vars : List String) (sols : List (Except EngineError Solution)),
      (∀ s ∈ sols.filterMap Except.toOption, ∀ v ∈ vars, (s.get v).isSome) →
      (renderBrowserOutcome (Except.ok (QueryResults.Solutions vars sols))).isSome) := by
  constructor
  · intro vars sols s v hs hv hn
    rw [renderBrowserOutcome, renderRows_eq_none vars (sols.filterMap Except.toOption) s hs v hv hn]
  · intro vars sols h
    rw [renderBrowserOutcome, renderRows_eq_map vars (sols.filterMap Except.toOption) h]
    rfl

/-- Witness for C4: a solution with no bindings under one declared
column makes rendering fail. -/
theorem claim_C4_witness :
    renderBrowserOutcome (Except.ok (QueryResults.Solutions ["x"] [Except.ok ⟨[]⟩])) = none :=
  claim_C4_missing_binding_fatal.1 ["x"] [Except.ok ⟨[]⟩] ⟨[]⟩ "x" (by decide) (by decide) rfl

/-- handle_key never returns an error. -/
theorem handleKey_isOk (app : App) (k : KeyEvent) :
    ∃ a, app.handleKey k = Except.ok a := by
  obtain ⟨st, m, q, f⟩ := app
  obtain ⟨code, kind⟩ := k
  cases kind <;> cases m <;> cases code <;>
    first
      | exact ⟨_, rfl⟩
      | (rename_i ch
         by_cases hch : ch = 'q' <;>
           simp [App.handleKey, App.handleKeyCodeInBrowseMode, hch, App.quit])

/-- handle_event never returns an error: it returns its pure projection. -/
theorem handleEvent_eq_ok (app : App) (e : Option Event) :
    app.handleEvent e = Except.ok (app.stepEvent e) := by
  cases e with
  | none => rfl
  | some ev =>
    cases ev with
    | Key k =>
      obtain ⟨a, ha⟩ := handleKey_isOk app k
      simp [App.handleEvent, App.stepEvent, ha]
    | Resize w h => rfl
    | FocusGained => rfl
    | FocusLost => rfl

/-- Key handling either leaves the quitting flag as it was, or sets it
on a q press in Browse mode. -/
theorem handleKey_quitting_cases (app : App) (k : KeyEvent) (a2 : App)
    (h : app.handleKey k = Except.ok a2) :
    a2.quitting = app.quitting ∨
      (app.mode = Mode.Browse ∧ k.kind = KeyEventKind.Press ∧
        k.code = KeyCode.Char 'q' ∧ a2.quitting = true) := by
  obtain ⟨st, m, q, f⟩ := app
  obtain ⟨code, kind⟩ := k
  cases kind
  case Release =>
    simp [App.handleKey] at h
    subst h; exact Or.inl rfl
  case Repeat =>
    simp [App.handleKey] at h
    subst h; exact Or.inl rfl
  case Press =>
    cases m
    case Query =>
      cases code <;>
        (simp [App.handleKey, App.handleKeyCodeInQueryMode, App.switchMode] at h;
         subst h; exact Or.inl rfl)
    case Browse =>
      cases code
      case Tab =>
        simp [App.handleKey, App.handleKeyCodeInBrowseMode, App.switchMode] at h
        subst h; exact Or.inl rfl
      case Char ch =>
        by_cases hch : ch = 'q'
        · subst hch
          simp [App.handleKey, App.handleKeyCodeInBrowseMode, App.quit] at h
          subst h
          exact Or.inr ⟨rfl, rfl, rfl, rfl⟩
        · simp [App.handleKey, App.handleKeyCodeInBrowseMode, hch] at h
          subst h; exact Or.inl rfl
      all_goals
        (simp [App.handleKey, App.handleKeyCodeInBrowseMode] at h;
         subst h; exact Or.inl rfl)

/-- Once set, the quitting flag survives one more handled poll outcome. -/
theorem stepEvent_mono (app : App) (e : Option Event) (h : app.quitting = true) :
    (app.stepEvent e).quitting = true := by
  cases e with
  | none => exact h
  | some ev =>
    cases ev with
    | Key k =>
      have hk : app.handleKey k = Except.ok (app.stepEvent (some (Event.Key k))) :=
        handleEvent_eq_ok app (some (Event.Key k))
      rcases handleKey_quitting_cases app k _ hk with hc | hc
      · rw [hc]; exact h
      · exact hc.2.2.2
    | Resize w hh => exact h
    | FocusGained => exact h
    | FocusLost => exact h

/-- Once set, the quitting flag survives any handled poll trace. -/
theorem stepEvents_mono (evs : List (Option Event)) (app : App) (h : app.quitting = true) :
    (app.stepEvents evs).quitting = true := by
  induction evs generalizing app with
  | nil => exact h
  | cons e rest ih => exact ih (app.stepEvent e) (stepEvent_mono app e h)

/-- The loop returns right after the first poll outcome that leaves the
quitting flag set, in the state reached at that point. -/
theorem runLoop_first_quit (post : List (Option Event)) (e : Option Event) :
    ∀ (pre : List (Option Event)) (app : App),
      (app.stepEvents pre).quitting = false →
      ((app.stepEvents pre).stepEvent e).quitting = true →
      app.runLoop (pre ++ e :: post) = Except.ok (some (app.stepEvents (pre ++ [e]))) := by
  intro pre
  induction pre with
  | nil =>
    intro app h1 h2
    have h2b : (app.stepEvent e).quitting = true := h2
    have he := handleEvent_eq_ok app e
    have hstep : app.runLoop ([] ++ e :: post)
        = if (app.stepEvent e).quitting then Except.ok (some (app.stepEvent e))
          else App.runLoop (app.stepEvent e) post := by
      rw [List.nil_append, App.runLoop, he]
    rw [hstep, if_pos h2b]
    rfl
  | cons p pre2 ih =>
    intro app h1 h2
    have h1b : ((app.stepEvent p).stepEvents pre2).quitting = false := h1
    have h2b : (((app.stepEvent p).stepEvents pre2).stepEvent e).quitting = true := h2
    have he := handleEvent_eq_ok app p
    have hq : (app.stepEvent p).quitting = false := by
      cases hb : (app.stepEvent p).quitting
      · rfl
      · exact absurd (stepEvents_mono pre2 (app.stepEvent p) hb) (by simp [h1b])
    have hstep : app.runLoop ((p :: pre2) ++ e :: post)
        = if (app.stepEvent p).quitting then Except.ok (some (app.stepEvent p))
          else App.runLoop (app.stepEvent p) (pre2 ++ e :: post) := by
      rw [List.cons_append, App.runLoop, he]
    rw [hstep, if_neg (by simp [hq])]
    exact ih (app.stepEvent p) h1b h2b

/-- C6: pressing q in Browsing mode sets the quitting flag; no other
input ever sets it; and the session loop returns normally at the end of
the first iteration whose handled poll outcome leaves the flag set, in
exactly the state reached at that point. -/
theorem claim_C6_quit_key :
    (∀ (app : App) (k : KeyEvent), app.mode = Mode.Browse →
      k.kind = KeyEventKind.Press → k.code = KeyCode.Char 'q' →
      app.handleKey k = Except.ok { app with quitting := true }) ∧
    (∀ (app : App) (k : KeyEvent) (a2 : App), app.handleKey k = Except.ok a2 →
      a2.quitting = true → app.quitting = false →
      app.mode = Mode.Browse ∧ k.kind = KeyEventKind.Press ∧ k.code = KeyCode.Char 'q') ∧
    (∀ (app : App) (pre post : List (Option Event)) (e : Option Event),
      (app.stepEvents pre).quitting = false →
      ((app.stepEvents pre).stepEvent e).quitting = true →
      app.runLoop (pre ++ e :: post) = Except.ok (some (app.stepEvents (pre ++ [e])))) := by
  refine ⟨?_, ?_, ?_⟩
  · intro app k hm hk hc
    obtain ⟨st, m, q, f⟩ := app
    obtain ⟨code, kind⟩ := k
    simp only at hm hk hc
    subst hm
    subst hk
    subst hc
    rfl
  · intro app k a2 h hq2 hq1
    rcases handleKey_quitting_cases app k a2 h with hc | hc
    · rw [hq2, hq1] at hc
      exact Bool.noConfusion hc
    · exact ⟨hc.1, hc.2.1, hc.2.2.1⟩
  · intro app pre post e h1 h2
    exact runLoop_first_quit post e pre app h1 h2

/-- Witness for C6: from the fixture initial session, the one-event
trace consisting of a q press exits the loop in the quitting state. -/
theorem claim_C6_witness :
    appFx.runLoop [some (Event.Key keyQPress)]
      = Except.ok (some (appFx.stepEvents [some (Event.Key keyQPress)])) :=
  claim_C6_quit_key.2.2 appFx [] [] (some (Event.Key keyQPress)) rfl rfl

/-- C8: if a path argument is supplied and the dataset load fails at
any stage, main returns that error and the session loop is never
entered. -/
theorem claim_C8_load_failure_aborts (env : MainEnv) (loadEnv : LoadEnv)
    (store : Store) (e : String)
    (hs : env.setupRes = Except.ok ()) (hst : env.storeRes = Except.ok store)
    (hp : env.pathArg = some loadEnv)
    (hl : (App.new store).load loadEnv = Except.error e) :
    mainModel env = (Except.error e, false) := by
  obtain ⟨setupRes, storeRes, pathArg, runRes⟩ := env
  simp only at hs hst hp
  subst hs
  subst hst
  subst hp
  simp [mainModel, hl]

/-- A fixture load oracle whose path resolution fails. -/
def loadEnvFx : LoadEnv :=
  { absoluteRes := Except.error "io error",
    readRes := Except.error "unread",
    baseIriRes := fun _ => Except.ok (),
    loadFromReadRes := Except.ok (),
    loadedStore := failStore }

/-- A fixture main oracle: terminal and store succeed, the path
argument is present with the failing load oracle. -/
def mainEnvFx : MainEnv :=
  { setupRes := Except.ok (),
    storeRes := Except.ok failStore,
    pathArg := some loadEnvFx,
    runRes := Except.ok () }

/-- Witness for C8 at the fixture oracles. -/
theorem claim_C8_witness :
    mainModel mainEnvFx = (Except.error "io error", false) :=
  claim_C8_load_failure_aborts mainEnvFx loadEnvFx failStore "io error" rfl rfl rfl rfl
